import Mathlib

/-!
Verification development for the MT19937 state-recovery core of the
lucky-solver repository (src/main.py).  The Python code is shallowly
embedded: Python ints become `Nat` with explicit 32-bit masking where
the source masks, the mutable 624-word array becomes a `List Nat`
transformed by `List.set`, and the one raising method is embedded as a
function returning the post-call object state together with an optional
raised error (a Python exception propagates and leaves the object with
whatever state it had at the raise point).
-/

set_option maxRecDepth 8000

namespace LuckySolver

/-- Tempering parameter (src/main.py line 17): shift 11. -/
def U : Nat := 11

/-- Tempering parameter (line 17): mask 0xFFFFFFFF. -/
def D : Nat := 0xFFFFFFFF

/-- Tempering parameter (line 18): shift 7. -/
def S : Nat := 7

/-- Tempering parameter (line 18): mask 0x9D2C5680. -/
def B : Nat := 0x9D2C5680

/-- Tempering parameter (line 19): shift 15. -/
def T : Nat := 15

/-- Tempering parameter (line 19): mask 0xEFC60000. -/
def C : Nat := 0xEFC60000

/-- Tempering parameter (line 20): shift 18. -/
def L : Nat := 18

/-- The loop indices of `for i in range(0, 32, shift)` (Python semantics
for a positive step: 0, shift, 2*shift, ... while below 32). -/
def rangeStep32 (shift : Nat) : List Nat :=
  (List.range 32).filter (fun i => i % shift = 0)

/-- Embedding of `undo_right_shift_xor` (src/main.py lines 22-29),
statement by statement: accumulator x starts at 0; each iteration
takes `part = y >> i`, a chunk mask, `x_part = (part ^ (x >> shift)) & mask`,
and ORs `x_part << i` into x; the result is masked to 32 bits. -/
def undo_right_shift_xor (y shift : Nat) : Nat :=
  ((rangeStep32 shift).foldl
    (fun x i =>
      let part := y >>> i
      let mask := if i + shift ≤ 32 then (1 <<< shift) - 1 else (1 <<< (32 - i)) - 1
      let x_part := (part ^^^ (x >>> shift)) &&& mask
      x ||| (x_part <<< i)) 0) &&& 0xFFFFFFFF

/-- Embedding of `undo_left_shift_xor_and` (src/main.py lines 31-39). -/
def undo_left_shift_xor_and (y shift mask : Nat) : Nat :=
  ((rangeStep32 shift).foldl
    (fun x i =>
      let part_mask := if i + shift ≤ 32 then (1 <<< shift) - 1 else (1 <<< (32 - i)) - 1
      let part := (y >>> i) &&& part_mask
      let prev := (x <<< shift) &&& mask
      let x_part := part ^^^ ((prev >>> i) &&& part_mask)
      x ||| (x_part <<< i)) 0) &&& 0xFFFFFFFF

/-- Embedding of `untemper` (src/main.py lines 41-47): mask, undo the
four tempering steps in reverse order, mask again. -/
def untemper (y : Nat) : Nat :=
  let y1 := y &&& 0xFFFFFFFF
  let y2 := undo_right_shift_xor y1 L
  let y3 := undo_left_shift_xor_and y2 T C
  let y4 := undo_left_shift_xor_and y3 S B
  let y5 := undo_right_shift_xor y4 U
  y5 &&& 0xFFFFFFFF

/-- Engine state: the 624-word recurrence array `mt` and the cursor
`index` (src/main.py lines 49-58). -/
structure MT19937 where
  mt : List Nat
  index : Nat
  deriving DecidableEq, Repr

namespace MT19937

/-- Class constant N = 624 (line 50). -/
def N : Nat := 624

/-- Class constant M = 397 (line 51). -/
def M : Nat := 397

/-- Class constant MATRIX_A (line 52). -/
def MATRIX_A : Nat := 0x9908B0DF

/-- Class constant UPPER_MASK (line 53). -/
def UPPER_MASK : Nat := 0x80000000

/-- Class constant LOWER_MASK (line 54). -/
def LOWER_MASK : Nat := 0x7FFFFFFF

/-- Embedding of `__init__` (lines 56-58): mt = [0]*N, index = N. -/
def init : MT19937 :=
  { mt := List.replicate N 0, index := N }

/-- The error raised by `seed_from_state` on a wrong-length input
(line 62, `ValueError("Need exactly 624 untempered values")`). -/
inductive MTError where
  | InvalidStateLength
  deriving DecidableEq, Repr

/-- Embedding of `seed_from_state` (lines 60-64).  Returns the object
state after the call together with the raised error, if any: the length
check precedes every mutation, so on the error path the object is
returned unchanged, and on success mt holds the 32-bit-masked input
words and index is N. -/
def seed_from_state (s : MT19937) (state_untempered : List Nat) :
    MT19937 × Option MTError :=
  if state_untempered.length ≠ N then
    (s, some MTError.InvalidStateLength)
  else
    ({ mt := state_untempered.map (fun x => x &&& 0xFFFFFFFF), index := N }, none)

/-- One iteration of the twist loop body (lines 68-72) at index i:
`y` combines the upper bit of mt[i] with the lower 31 bits of
mt[(i+1) % N]; mt[i] is assigned mt[(i+M) % N] ^ (y >> 1), then
conditionally XORed with MATRIX_A, then masked to 32 bits. -/
def twistStep (mt : List Nat) (i : Nat) : List Nat :=
  let y := (mt.getD i 0 &&& UPPER_MASK) ||| (mt.getD ((i + 1) % N) 0 &&& LOWER_MASK)
  let mt1 := mt.set i ((mt.getD ((i + M) % N) 0) ^^^ (y >>> 1))
  let mt2 := if y &&& 1 ≠ 0 then mt1.set i ((mt1.getD i 0) ^^^ MATRIX_A) else mt1
  mt2.set i ((mt2.getD i 0) &&& 0xFFFFFFFF)

/-- Embedding of `twist` (lines 66-73): the loop body applied in place
for i = 0 .. N-1, then index = 0. -/
def twist (s : MT19937) : MT19937 :=
  { mt := (List.range N).foldl twistStep s.mt, index := 0 }

/-- Embedding of the static method `temper` (lines 75-81). -/
def temper (y : Nat) : Nat :=
  let y1 := y ^^^ (y >>> U)
  let y2 := y1 ^^^ ((y1 <<< S) &&& B)
  let y3 := y2 ^^^ ((y2 <<< T) &&& C)
  let y4 := y3 ^^^ (y3 >>> L)
  y4 &&& 0xFFFFFFFF

/-- Embedding of `next_uint32` (lines 83-88): twist when the cursor is
exhausted, read mt[index], advance the cursor, return the tempered
word paired with the new object state. -/
def next_uint32 (s : MT19937) : Nat × MT19937 :=
  let s1 := if s.index ≥ N then s.twist else s
  let y := s1.mt.getD s1.index 0
  (temper y, { s1 with index := s1.index + 1 })

/-- The engine state after n calls to `next_uint32`. -/
def advance (s : MT19937) : Nat → MT19937
  | 0 => s
  | n + 1 => advance (s.next_uint32).2 n

/-- The value returned by the (n+1)-th call to `next_uint32`
(0-indexed: `output s 0` is the first output). -/
def output (s : MT19937) (n : Nat) : Nat :=
  ((s.advance n).next_uint32).1

/-- The list of the first n outputs, in order. -/
def outputs (s : MT19937) : Nat → List Nat
  | 0 => []
  | n + 1 => (s.next_uint32).1 :: outputs (s.next_uint32).2 n

end MT19937

/-! ### The Mersenne Twister recurrence as an infinite sequence

`mtSeq mt n` is the n-th word of the infinite MT19937 word sequence whose
first 624 entries are the list `mt`: for n ≥ 624 it applies the standard
recurrence x(n) = x(n-227) XOR f(upper bit of x(n-624), lower 31 bits of
x(n-623)), exactly the combination computed by one iteration of the twist
loop.  The in-place twist of the source is proven below to produce
`mtSeq mt (624+i)` at position i. -/

/-- The recurrence combination applied by one twist iteration: combine
the upper bit of a with the lower 31 bits of b, shift, conditionally mix
in MATRIX_A, XOR into c, and mask to 32 bits. -/
def twistComb (a b c : Nat) : Nat :=
  let y := (a &&& MT19937.UPPER_MASK) ||| (b &&& MT19937.LOWER_MASK)
  let v := c ^^^ (y >>> 1)
  let v2 := if y &&& 1 ≠ 0 then v ^^^ MT19937.MATRIX_A else v
  v2 &&& 0xFFFFFFFF

/-- Fuel-indexed version of the recurrence sequence (structural recursion
on the fuel; any fuel at least n computes the true value). -/
def mtSeqFuel (mt : List Nat) : Nat → Nat → Nat
  | 0, n => mt.getD n 0
  | fuel + 1, n =>
    if n < 624 then mt.getD n 0
    else
      twistComb (mtSeqFuel mt fuel (n - 624)) (mtSeqFuel mt fuel (n - 623))
        (mtSeqFuel mt fuel (n - 227))

def mtSeq (mt : List Nat) (n : Nat) : Nat :=
  mtSeqFuel mt n n

theorem mtSeqFuel_irrel (mt : List Nat) :
    ∀ fuel1 fuel2 n, n ≤ fuel1 → n ≤ fuel2 →
      mtSeqFuel mt fuel1 n = mtSeqFuel mt fuel2 n := by
  intro fuel1
  induction fuel1 using Nat.strong_induction_on with
  | _ fuel1 ih =>
    intro fuel2 n h1 h2
    match fuel1, fuel2 with
    | 0, 0 => rfl
    | 0, f2 + 1 =>
      have hn : n = 0 := Nat.le_zero.mp h1
      subst hn
      simp [mtSeqFuel]
    | f1 + 1, 0 =>
      have hn : n = 0 := Nat.le_zero.mp h2
      subst hn
      simp [mtSeqFuel]
    | f1 + 1, f2 + 1 =>
      by_cases hlt : n < 624
      · simp [mtSeqFuel, hlt]
      · simp only [mtSeqFuel, if_neg hlt]
        have hn : 624 ≤ n := Nat.not_lt.mp hlt
        rw [ih f1 (by omega) f2 (n - 624) (by omega) (by omega),
            ih f1 (by omega) f2 (n - 623) (by omega) (by omega),
            ih f1 (by omega) f2 (n - 227) (by omega) (by omega)]

theorem mtSeq_lt (mt : List Nat) (n : Nat) (h : n < 624) :
    mtSeq mt n = mt.getD n 0 := by
  unfold mtSeq
  match n with
  | 0 => rfl
  | m + 1 => simp [mtSeqFuel, h]

theorem mtSeq_ge (mt : List Nat) (n : Nat) (h : 624 ≤ n) :
    mtSeq mt n =
      twistComb (mtSeq mt (n - 624)) (mtSeq mt (n - 623)) (mtSeq mt (n - 227)) := by
  unfold mtSeq
  match n, h with
  | m + 1, h =>
    simp only [mtSeqFuel, if_neg (Nat.not_lt.mpr h)]
    rw [mtSeqFuel_irrel mt m (m + 1 - 624) (m + 1 - 624) (by omega) (by omega),
        mtSeqFuel_irrel mt m (m + 1 - 623) (m + 1 - 623) (by omega) (by omega),
        mtSeqFuel_irrel mt m (m + 1 - 227) (m + 1 - 227) (by omega) (by omega)]

/-- What one iteration of the twist loop body does to the array, stated
through `getD`: the length is unchanged, positions other than i are
untouched, and position i receives the combined-and-masked value computed
from the current (partially rewritten) array. -/
theorem twistStep_getD (r : List Nat) (i : Nat) (hi : i < r.length) :
    (MT19937.twistStep r i).length = r.length ∧
    (∀ j, j ≠ i → (MT19937.twistStep r i).getD j 0 = r.getD j 0) ∧
    (MT19937.twistStep r i).getD i 0 =
      twistComb (r.getD i 0) (r.getD ((i + 1) % MT19937.N) 0)
        (r.getD ((i + MT19937.M) % MT19937.N) 0) := by
  unfold MT19937.twistStep twistComb
  set y := (r.getD i 0 &&& MT19937.UPPER_MASK) |||
           (r.getD ((i + 1) % MT19937.N) 0 &&& MT19937.LOWER_MASK) with hy
  by_cases hodd : y &&& 1 ≠ 0
  · simp only [if_pos hodd]
    refine ⟨by simp, fun j hj => ?_, ?_⟩
    · simp [List.getD_eq_getElem?_getD, List.getElem?_set_ne (fun h => hj h.symm)]
    · simp [List.getD_eq_getElem?_getD, List.getElem?_set_self, hi]
  · simp only [if_neg hodd]
    refine ⟨by simp, fun j hj => ?_, ?_⟩
    · simp [List.getD_eq_getElem?_getD, List.getElem?_set_ne (fun h => hj h.symm)]
    · simp [List.getD_eq_getElem?_getD, List.getElem?_set_self, hi]

/-- Refinement of the in-place twist loop: after the first k iterations,
positions below k hold the recurrence values `mtSeq mt (624+j)` and
positions from k on still hold the pre-twist values. -/
theorem foldl_twistStep_spec (mt : List Nat) (hlen : mt.length = 624) :
    ∀ k, k ≤ 624 →
      ((List.range k).foldl MT19937.twistStep mt).length = 624 ∧
      ∀ j, j < 624 →
        ((List.range k).foldl MT19937.twistStep mt).getD j 0 =
          if j < k then mtSeq mt (624 + j) else mt.getD j 0 := by
  intro k
  induction k with
  | zero =>
    intro _
    refine ⟨hlen, fun j hj => ?_⟩
    simp
  | succ k ih =>
    intro hk1
    have hk : k ≤ 624 := Nat.le_of_succ_le hk1
    obtain ⟨ihlen, ihval⟩ := ih hk
    set r := (List.range k).foldl MT19937.twistStep mt with hr
    have hfold : (List.range (k + 1)).foldl MT19937.twistStep mt =
        MT19937.twistStep r k := by
      rw [List.range_succ, List.foldl_append]
      rfl
    have hklt : k < r.length := by omega
    obtain ⟨slen, sother, sself⟩ := twistStep_getD r k hklt
    constructor
    · rw [hfold, slen, ihlen]
    intro j hj
    rw [hfold]
    by_cases hjk : j = k
    · subst hjk
      rw [sself]
      have e1 : r.getD j 0 = mt.getD j 0 := by
        rw [ihval j hj]; simp
      have e2 : r.getD ((j + 1) % MT19937.N) 0 = mtSeq mt (j + 1) := by
        show r.getD ((j + 1) % 624) 0 = mtSeq mt (j + 1)
        by_cases hj623 : j < 623
        · rw [Nat.mod_eq_of_lt (by omega), ihval (j + 1) (by omega)]
          rw [if_neg (by omega), mtSeq_lt mt (j + 1) (by omega)]
        · have hj' : j = 623 := by omega
          subst hj'
          have hmod : (623 + 1) % 624 = 0 := by norm_num
          rw [hmod, ihval 0 (by omega), if_pos (by omega)]
      have e3 : r.getD ((j + MT19937.M) % MT19937.N) 0 = mtSeq mt (397 + j) := by
        show r.getD ((j + 397) % 624) 0 = mtSeq mt (397 + j)
        by_cases hj227 : j < 227
        · rw [Nat.mod_eq_of_lt (by omega), ihval (j + 397) (by omega)]
          rw [if_neg (by omega), mtSeq_lt mt (397 + j) (by omega)]
          rw [Nat.add_comm j 397]
        · have hmod : (j + 397) % 624 = j - 227 := by omega
          rw [hmod, ihval (j - 227) (by omega), if_pos (by omega)]
          congr 1
          omega
      rw [e1, e2, e3, if_pos (by omega), mtSeq_ge mt (624 + j) (by omega)]
      have a1 : 624 + j - 624 = j := by omega
      have a2 : 624 + j - 623 = j + 1 := by omega
      have a3 : 624 + j - 227 = 397 + j := by omega
      rw [a1, a2, a3, mtSeq_lt mt j (by omega)]
    · rw [sother j hjk, ihval j hj]
      by_cases hjlt : j < k
      · rw [if_pos hjlt, if_pos (by omega)]
      · rw [if_neg hjlt, if_neg (by omega)]

/-- The twist refinement at the level of the engine operation: for a
624-word array, entry i of the twisted array is the recurrence value
`mtSeq` at 624 + i. -/
theorem twist_getD (s : MT19937) (hlen : s.mt.length = 624) (j : Nat) (hj : j < 624) :
    (s.twist).mt.getD j 0 = mtSeq s.mt (624 + j) := by
  have h := (foldl_twistStep_spec s.mt hlen 624 (by omega)).2 j hj
  rw [if_pos hj] at h
  exact h

theorem twist_length (s : MT19937) (hlen : s.mt.length = 624) :
    (s.twist).mt.length = 624 :=
  (foldl_twistStep_spec s.mt hlen 624 (by omega)).1

theorem twist_index (s : MT19937) : (s.twist).index = 0 := rfl

/-- The twisted array by itself (the mt field produced by `twist`). -/
def twistArr (mt : List Nat) : List Nat :=
  (List.range MT19937.N).foldl MT19937.twistStep mt

theorem twist_mt (s : MT19937) : (s.twist).mt = twistArr s.mt := rfl

theorem twistArr_getD (mt : List Nat) (hlen : mt.length = 624) (j : Nat) (hj : j < 624) :
    (twistArr mt).getD j 0 = mtSeq mt (624 + j) :=
  twist_getD ⟨mt, 0⟩ hlen j hj

theorem twistArr_length (mt : List Nat) (hlen : mt.length = 624) :
    (twistArr mt).length = 624 :=
  twist_length ⟨mt, 0⟩ hlen

/-! ### Characterizations of next_uint32, advance and outputs -/

theorem advance_succ (s : MT19937) (n : Nat) :
    s.advance (n + 1) = MT19937.advance (s.next_uint32).2 n := rfl

theorem outputs_succ (s : MT19937) (n : Nat) :
    s.outputs (n + 1) = (s.next_uint32).1 :: MT19937.outputs (s.next_uint32).2 n := rfl

theorem output_succ (s : MT19937) (n : Nat) :
    s.output (n + 1) = MT19937.output (s.next_uint32).2 n := by
  unfold MT19937.output
  rw [advance_succ]

theorem next_uint32_of_lt (s : MT19937) (h : s.index < 624) :
    s.next_uint32 = (MT19937.temper (s.mt.getD s.index 0), ⟨s.mt, s.index + 1⟩) := by
  have hne : ¬ s.index ≥ MT19937.N := by
    simp only [MT19937.N]; omega
  simp only [MT19937.next_uint32, if_neg hne]

theorem next_uint32_of_ge (s : MT19937) (h : s.index ≥ 624) :
    s.next_uint32 = (MT19937.temper ((twistArr s.mt).getD 0 0), ⟨twistArr s.mt, 1⟩) := by
  have hge : s.index ≥ MT19937.N := by
    simp only [MT19937.N]; omega
  simp only [MT19937.next_uint32, if_pos hge]
  rfl

theorem advance_of_lt : ∀ (k : Nat) (mt : List Nat) (j : Nat), j + k ≤ 624 →
    MT19937.advance ⟨mt, j⟩ k = ⟨mt, j + k⟩ := by
  intro k
  induction k with
  | zero => intro mt j _; rfl
  | succ k ih =>
    intro mt j hs
    show MT19937.advance (MT19937.next_uint32 ⟨mt, j⟩).2 k = _
    rw [next_uint32_of_lt ⟨mt, j⟩ (by show j < 624; omega)]
    show MT19937.advance ⟨mt, j + 1⟩ k = _
    rw [ih mt (j + 1) (by omega)]
    congr 1
    omega

theorem outputs_of_lt : ∀ (k : Nat) (mt : List Nat) (j : Nat), j + k ≤ 624 →
    MT19937.outputs ⟨mt, j⟩ k =
      (List.range' j k 1).map (fun i => MT19937.temper (mt.getD i 0)) := by
  intro k
  induction k with
  | zero => intro mt j _; rfl
  | succ k ih =>
    intro mt j hs
    show (MT19937.next_uint32 ⟨mt, j⟩).1 ::
        MT19937.outputs (MT19937.next_uint32 ⟨mt, j⟩).2 k = _
    rw [next_uint32_of_lt ⟨mt, j⟩ (by show j < 624; omega)]
    show MT19937.temper (mt.getD j 0) :: MT19937.outputs ⟨mt, j + 1⟩ k = _
    rw [ih mt (j + 1) (by omega), List.range'_succ]
    rfl

theorem outputs_length : ∀ (k : Nat) (s : MT19937), (s.outputs k).length = k := by
  intro k
  induction k with
  | zero => intro s; rfl
  | succ k ih => intro s; simpa [MT19937.outputs] using ih (s.next_uint32).2

/-- The 624 outputs drawn from a freshly seeded engine (cursor at 624)
are the tempered recurrence values at positions 624 .. 1247. -/
theorem outputs_seeded (mt' : List Nat) (hlen : mt'.length = 624) :
    MT19937.outputs ⟨mt', 624⟩ 624 =
      (List.range 624).map (fun i => MT19937.temper (mtSeq mt' (624 + i))) := by
  have h0 : (MT19937.outputs ⟨mt', 624⟩ 624) =
      ((⟨mt', 624⟩ : MT19937).next_uint32).1 ::
        MT19937.outputs ((⟨mt', 624⟩ : MT19937).next_uint32).2 623 :=
    outputs_succ ⟨mt', 624⟩ 623
  rw [h0, next_uint32_of_ge _ (by show 624 ≤ 624; omega)]
  show MT19937.temper ((twistArr mt').getD 0 0) ::
      MT19937.outputs ⟨twistArr mt', 1⟩ 623 = _
  rw [outputs_of_lt 623 (twistArr mt') 1 (by omega)]
  have h1 : (List.range 624).map (fun i => MT19937.temper (mtSeq mt' (624 + i))) =
      (List.range' 0 624 1).map (fun i => MT19937.temper ((twistArr mt').getD i 0)) := by
    rw [List.range_eq_range']
    apply List.map_congr_left
    intro i hi
    have hilt : i < 624 := by
      rcases List.mem_range'.mp hi with ⟨m, hm, rfl⟩
      omega
    rw [twistArr_getD mt' hlen i hilt]
  rw [h1]
  have h2 : List.range' 0 624 1 = 0 :: List.range' 1 623 1 := by
    have := List.range'_succ 0 623 1
    simpa using this
  rw [h2]
  rfl

/-- After its first 624 draws, a freshly seeded engine holds the twisted
array with the cursor exhausted again. -/
theorem advance_seeded (mt' : List Nat) :
    MT19937.advance ⟨mt', 624⟩ 624 = ⟨twistArr mt', 624⟩ := by
  have h0 : MT19937.advance ⟨mt', 624⟩ 624 =
      MT19937.advance ((⟨mt', 624⟩ : MT19937).next_uint32).2 623 :=
    advance_succ ⟨mt', 624⟩ 623
  rw [h0, next_uint32_of_ge _ (by show 624 ≤ 624; omega)]
  show MT19937.advance ⟨twistArr mt', 1⟩ 623 = _
  rw [advance_of_lt 623 (twistArr mt') 1 (by omega)]

/-- The 625th output of a freshly seeded engine: the first tempered word
of the twice-twisted array. -/
theorem output_seeded_624 (mt' : List Nat) (hlen : mt'.length = 624) :
    MT19937.output ⟨mt', 624⟩ 624 = MT19937.temper (mtSeq (twistArr mt') 624) := by
  unfold MT19937.output
  rw [advance_seeded mt', next_uint32_of_ge _ (by show 624 ≤ 624; omega)]
  show MT19937.temper ((twistArr (twistArr mt')).getD 0 0) = _
  rw [twistArr_getD (twistArr mt') (twistArr_length mt' hlen) 0 (by omega)]

/-- The first output of a freshly seeded engine. -/
theorem output_seeded_0 (mt' : List Nat) (hlen : mt'.length = 624) :
    MT19937.output ⟨mt', 624⟩ 0 = MT19937.temper (mtSeq mt' 624) := by
  unfold MT19937.output
  show (MT19937.next_uint32 ⟨mt', 624⟩).1 = _
  rw [next_uint32_of_ge _ (by show 624 ≤ 624; omega)]
  show MT19937.temper ((twistArr mt').getD 0 0) = _
  rw [twistArr_getD mt' hlen 0 (by omega)]

/-! ### The all-zero state -/

theorem mtSeq_zero : ∀ n, mtSeq (List.replicate 624 0) n = 0 := by
  intro n
  induction n using Nat.strong_induction_on with
  | _ n ih =>
    by_cases h : n < 624
    · rw [mtSeq_lt _ _ h]
      rw [List.getD_eq_getElem?_getD, List.getElem?_replicate]
      split <;> rfl
    · rw [mtSeq_ge _ _ (Nat.not_lt.mp h)]
      rw [ih (n - 624) (by omega), ih (n - 623) (by omega), ih (n - 227) (by omega)]
      decide

theorem getD_eq_getElem_of_lt (l : List Nat) (i : Nat) (h : i < l.length) :
    l.getD i 0 = l[i] := by
  rw [List.getD_eq_getElem?_getD, List.getElem?_eq_getElem h]
  rfl

theorem twistArr_zero : twistArr (List.replicate 624 0) = List.replicate 624 0 := by
  apply List.ext_getElem
  · rw [twistArr_length _ (by simp)]
    simp
  · intro i h1 h2
    have hi : i < 624 := by simpa using h2
    have hD := twistArr_getD (List.replicate 624 0) (by simp) i hi
    rw [mtSeq_zero] at hD
    rw [getD_eq_getElem_of_lt _ _ h1] at hD
    rw [hD, List.getElem_replicate]

theorem next_zero (s : MT19937) (h : s.mt = List.replicate 624 0) :
    (s.next_uint32).1 = 0 ∧ (s.next_uint32).2.mt = List.replicate 624 0 := by
  by_cases hge : s.index ≥ 624
  · rw [next_uint32_of_ge s hge]
    constructor
    · show MT19937.temper ((twistArr s.mt).getD 0 0) = 0
      rw [h, twistArr_zero]
      decide
    · show twistArr s.mt = _
      rw [h, twistArr_zero]
  · rw [next_uint32_of_lt s (by omega)]
    constructor
    · show MT19937.temper (s.mt.getD s.index 0) = 0
      rw [h]
      have hz : (List.replicate 624 (0 : Nat)).getD s.index 0 = 0 := by
        rw [List.getD_eq_getElem?_getD, List.getElem?_replicate]
        split <;> rfl
      rw [hz]
      decide
    · exact h

theorem output_zero : ∀ (n : Nat) (s : MT19937), s.mt = List.replicate 624 0 →
    MT19937.output s n = 0 := by
  intro n
  induction n with
  | zero =>
    intro s h
    show (MT19937.next_uint32 (MT19937.advance s 0)).1 = 0
    exact (next_zero s h).1
  | succ n ih =>
    intro s h
    rw [output_succ]
    exact ih _ (next_zero s h).2

/-! ### 32-bit bounds -/

theorem getD_lt_of_all (l : List Nat) (h : ∀ x ∈ l, x < 2 ^ 32) (i : Nat) :
    l.getD i 0 < 2 ^ 32 := by
  rw [List.getD_eq_getElem?_getD]
  cases hx : l[i]? with
  | none => show (0 : Nat) < 2 ^ 32; decide
  | some a => show a < 2 ^ 32; exact h a (List.getElem?_mem hx)

theorem mem_set_lt (l : List Nat) (i v : Nat) (hl : ∀ x ∈ l, x < 2 ^ 32)
    (hv : v < 2 ^ 32) : ∀ x ∈ l.set i v, x < 2 ^ 32 := by
  intro x hx
  rcases List.mem_or_eq_of_mem_set hx with h | rfl
  · exact hl x h
  · exact hv

theorem twistStep_mem_lt (mt : List Nat) (i : Nat) (h : ∀ x ∈ mt, x < 2 ^ 32) :
    ∀ x ∈ MT19937.twistStep mt i, x < 2 ^ 32 := by
  have hy : (mt.getD i 0 &&& MT19937.UPPER_MASK) |||
      (mt.getD ((i + 1) % MT19937.N) 0 &&& MT19937.LOWER_MASK) < 2 ^ 32 :=
    Nat.or_lt_two_pow (Nat.lt_of_le_of_lt Nat.and_le_right (by decide))
      (Nat.lt_of_le_of_lt Nat.and_le_right (by decide))
  have hshift : ((mt.getD i 0 &&& MT19937.UPPER_MASK) |||
      (mt.getD ((i + 1) % MT19937.N) 0 &&& MT19937.LOWER_MASK)) >>> 1 < 2 ^ 32 := by
    refine Nat.lt_of_le_of_lt ?_ hy
    rw [Nat.shiftRight_eq_div_pow]
    exact Nat.div_le_self _ _
  have hv1 : mt.getD ((i + MT19937.M) % MT19937.N) 0 ^^^
      (((mt.getD i 0 &&& MT19937.UPPER_MASK) |||
        (mt.getD ((i + 1) % MT19937.N) 0 &&& MT19937.LOWER_MASK)) >>> 1) < 2 ^ 32 :=
    Nat.xor_lt_two_pow (getD_lt_of_all mt h _) hshift
  simp only [MT19937.twistStep]
  refine mem_set_lt _ _ _ ?_ (Nat.lt_of_le_of_lt Nat.and_le_right (by decide))
  split
  · refine mem_set_lt _ _ _ (mem_set_lt _ _ _ h hv1) ?_
    exact Nat.xor_lt_two_pow (getD_lt_of_all _ (mem_set_lt _ _ _ h hv1) _) (by decide)
  · exact mem_set_lt _ _ _ h hv1

theorem foldl_twistStep_mem_lt :
    ∀ (l : List Nat) (mt : List Nat), (∀ x ∈ mt, x < 2 ^ 32) →
      ∀ x ∈ l.foldl MT19937.twistStep mt, x < 2 ^ 32 := by
  intro l
  induction l with
  | nil => intro mt h; exact h
  | cons a l ih =>
    intro mt h
    exact ih _ (twistStep_mem_lt mt a h)

/-- The state invariant of the engine: every stored word is a 32-bit
value and the cursor lies between 0 and 624. -/
def Inv (s : MT19937) : Prop :=
  (∀ x ∈ s.mt, x < 2 ^ 32) ∧ s.index ≤ 624

/-! ### The tempering pipeline as four masked steps (spec wording) -/

/-- The four tempering steps exactly as the specification words them:
right-shift-xor by 11, left-shift-xor-and by 7 with mask 0x9D2C5680,
left-shift-xor-and by 15 with mask 0xEFC60000, right-shift-xor by 18,
with every step reduced modulo 2^32. -/
def temper_steps (x : Nat) : Nat :=
  let x1 := (x ^^^ (x >>> 11)) % 2 ^ 32
  let x2 := (x1 ^^^ ((x1 <<< 7) &&& 0x9D2C5680)) % 2 ^ 32
  let x3 := (x2 ^^^ ((x2 <<< 15) &&& 0xEFC60000)) % 2 ^ 32
  let x4 := (x3 ^^^ (x3 >>> 18)) % 2 ^ 32
  x4

/-! ### Indexing maps of ranges -/

theorem getD_map_range (f : Nat → Nat) (n j : Nat) (h : j < n) :
    ((List.range n).map f).getD j 0 = f j := by
  rw [List.getD_eq_getElem?_getD, List.getElem?_map, List.getElem?_range h]
  rfl

/-! ### Probe states used in concrete evaluations -/

/-- A probe array: 624 copies of 0x80000000 (only the top bit set). -/
def probeHigh : List Nat := List.replicate 624 0x80000000

/-- A probe array: 1 at position 0, zeros elsewhere. -/
def probeOne : List Nat := 1 :: List.replicate 623 0

/-- One entry of the snapshot twist: the combination the twist loop
computes at index i, but reading only pre-twist values of the array. -/
def twistEntry (mt : List Nat) (i : Nat) : Nat :=
  twistComb (mt.getD i 0) (mt.getD ((i + 1) % MT19937.N) 0)
    (mt.getD ((i + MT19937.M) % MT19937.N) 0)

/-- The twist computed entirely from a snapshot of the pre-twist array
(what claim C5 asserts the in-place loop to be equivalent to). -/
def snapshot_twist (mt : List Nat) : List Nat :=
  (List.range MT19937.N).map (twistEntry mt)

/-! ### Claim theorems -/

/-- C2: the claim states that temper and untemper are mutually inverse
bijections on the 32-bit space.  The code violates this: evaluating the
code shows untemper(temper(1)) = 17 and temper(untemper(12345)) is not
12345, so untemper fails to invert temper (the chunk loop of
undo_right_shift_xor walks the word bottom-to-top, while inverting a
right-shift-xor requires recovering the high chunks first). -/
theorem c2_untemper_not_inverse :
    untemper (MT19937.temper 1) = 17 ∧ untemper (MT19937.temper 1) ≠ 1 ∧
    MT19937.temper (untemper 12345) = 593566317 ∧
    MT19937.temper (untemper 12345) ≠ 12345 := by
  refine ⟨by decide, by decide, by decide, by decide⟩

/-- C3: seed_from_state fails with the length error exactly when the
input length differs from 624, and succeeds on every 624-word input. -/
theorem c3_length_validation (s : MT19937) (input : List Nat) :
    ((s.seed_from_state input).2 = some MT19937.MTError.InvalidStateLength ↔
      input.length ≠ 624) ∧
    (input.length = 624 → (s.seed_from_state input).2 = none) := by
  unfold MT19937.seed_from_state
  by_cases h : input.length ≠ MT19937.N
  · rw [if_pos h]
    have h624 : input.length ≠ 624 := h
    exact ⟨⟨fun _ => h624, fun _ => rfl⟩, fun hl => absurd hl h624⟩
  · rw [if_neg h]
    push_neg at h
    have h624 : input.length = 624 := h
    refine ⟨⟨fun hc => ?_, fun hc => absurd h624 hc⟩, fun _ => rfl⟩
    simp at hc

/-- C3 witness: a 624-word input is accepted, a 623-word input is
rejected with the length error. -/
theorem c3_length_validation_witness :
    (MT19937.init.seed_from_state (List.replicate 624 3)).2 = none ∧
    (MT19937.init.seed_from_state (List.replicate 623 3)).2 =
      some MT19937.MTError.InvalidStateLength :=
  ⟨(c3_length_validation MT19937.init (List.replicate 624 3)).2 (by decide),
   (c3_length_validation MT19937.init (List.replicate 623 3)).1.mpr (by decide)⟩

/-- C4 counterexample: the claim states that a 625-word input succeeds by
truncation to the first 624 words; in fact seed_from_state rejects it
with the length error. -/
theorem c4_counterexample_625_rejected :
    (MT19937.init.seed_from_state (List.replicate 625 0)).2 =
      some MT19937.MTError.InvalidStateLength := by
  decide

/-- C4 amended: an input longer than 624 words is an error exactly like a
shorter one; no truncation happens, and the engine is left unchanged. -/
theorem c4_amended_excess_length_errors (s : MT19937) (input : List Nat)
    (h : 624 < input.length) :
    s.seed_from_state input = (s, some MT19937.MTError.InvalidStateLength) := by
  unfold MT19937.seed_from_state
  rw [if_pos (show input.length ≠ MT19937.N by simp only [MT19937.N]; omega)]

/-- C4 amended witness at a concrete 625-word input. -/
theorem c4_amended_witness :
    624 < (List.replicate 625 (0 : Nat)).length ∧
    MT19937.init.seed_from_state (List.replicate 625 0) =
      (MT19937.init, some MT19937.MTError.InvalidStateLength) :=
  ⟨by decide, c4_amended_excess_length_errors MT19937.init (List.replicate 625 0) (by decide)⟩

/-- C5 counterexample: the claim states the twist is equivalent to a
twist computed entirely from a snapshot of the pre-twist array.  On the
state with 1 at position 0 and zeros elsewhere the in-place loop yields 0
at index 227 (it reads the already-rewritten entry 0), while the
snapshot twist yields 1 there. -/
theorem c5_counterexample_snapshot_differs :
    (MT19937.twist ⟨probeOne, 624⟩).mt.getD 227 0 = 0 ∧
    (snapshot_twist probeOne).getD 227 0 = 1 ∧
    (MT19937.twist ⟨probeOne, 624⟩).mt.getD 227 0 ≠
      (snapshot_twist probeOne).getD 227 0 := by
  have h1 : (MT19937.twist ⟨probeOne, 624⟩).mt.getD 227 0 = mtSeq probeOne (624 + 227) :=
    twist_getD ⟨probeOne, 624⟩ (by decide) 227 (by omega)
  have h2 : mtSeq probeOne (624 + 227) = 0 := by decide
  have h3 : (snapshot_twist probeOne).getD 227 0 = twistEntry probeOne 227 :=
    getD_map_range (twistEntry probeOne) MT19937.N 227 (by decide)
  have h4 : twistEntry probeOne 227 = 1 := by decide
  refine ⟨h1.trans h2, h3.trans h4, ?_⟩
  rw [h1, h2, h3, h4]
  decide

/-- C5 amended: the in-place loop is not the snapshot twist: for
i at least 227 the read at (i+397) mod 624, and at i = 623 the read at
index 0, see values already rewritten in the same pass.  What the loop
computes at entry i is exactly the standard MT19937 recurrence value
mtSeq at 624 + i of the running infinite word sequence. -/
theorem c5_amended_twist_is_recurrence (s : MT19937) (h : s.mt.length = 624)
    (i : Nat) (hi : i < 624) :
    (s.twist).mt.getD i 0 = mtSeq s.mt (624 + i) :=
  twist_getD s h i hi

/-- C5 amended witness at a concrete state and index. -/
theorem c5_amended_witness :
    probeOne.length = 624 ∧
    (MT19937.twist ⟨probeOne, 624⟩).mt.getD 623 0 = mtSeq probeOne (624 + 623) :=
  ⟨by decide, c5_amended_twist_is_recurrence ⟨probeOne, 624⟩ (by decide) 623 (by decide)⟩

/-- C6 counterexample: the claim states that next_output on a
never-seeded engine fails fast rather than silently returning a value
such as zero.  The constructor initializes mt to 624 zero words with the
cursor exhausted, and next_uint32 on that engine does not fail: it
twists the zero array and silently returns 0. -/
theorem c6_counterexample_returns_zero :
    ((MT19937.init).next_uint32).1 = 0 :=
  (next_zero MT19937.init rfl).1

/-- C6 amended: a never-seeded engine has no failure path at all; every
next_uint32 call on it succeeds and returns 0 (the zero array is a fixed
point of the twist and temper(0) = 0). -/
theorem c6_amended_unseeded_returns_zeros (n : Nat) :
    MT19937.output MT19937.init n = 0 :=
  output_zero n MT19937.init rfl

/-- C9: seed_from_state is atomic on error: when the input length is not
624 the call reports the length error and returns the engine with
exactly the mt array and cursor it had before the call (the length check
precedes every mutation). -/
theorem c9_error_leaves_state_unchanged (s : MT19937) (input : List Nat)
    (h : input.length ≠ 624) :
    s.seed_from_state input = (s, some MT19937.MTError.InvalidStateLength) := by
  unfold MT19937.seed_from_state
  rw [if_pos (show input.length ≠ MT19937.N from h)]

/-- C9 witness: a failing call on a non-trivial engine state returns
that exact state. -/
theorem c9_witness :
    ([1, 2, 3] : List Nat).length ≠ 624 ∧
    MT19937.seed_from_state ⟨List.replicate 624 7, 100⟩ [1, 2, 3] =
      (⟨List.replicate 624 7, 100⟩, some MT19937.MTError.InvalidStateLength) :=
  ⟨by decide, c9_error_leaves_state_unchanged ⟨List.replicate 624 7, 100⟩ [1, 2, 3] (by decide)⟩

/-- C7: for every 32-bit word, temper applies exactly the four steps of
the claim in the stated fixed order, with every step confined to 32 bits
(each intermediate already fits in 32 bits, so the reductions modulo
2^32 and the final mask change nothing). -/
theorem c7_temper_is_four_masked_steps (x : Nat) (h : x < 2 ^ 32) :
    MT19937.temper x = temper_steps x := by
  have hsr : ∀ (a k : Nat), a >>> k ≤ a := fun a k => by
    rw [Nat.shiftRight_eq_div_pow]
    exact Nat.div_le_self _ _
  have h1 : x ^^^ (x >>> 11) < 2 ^ 32 :=
    Nat.xor_lt_two_pow h (Nat.lt_of_le_of_lt (hsr x 11) h)
  have h2 : (x ^^^ (x >>> 11)) ^^^
      (((x ^^^ (x >>> 11)) <<< 7) &&& 0x9D2C5680) < 2 ^ 32 :=
    Nat.xor_lt_two_pow h1 (Nat.lt_of_le_of_lt Nat.and_le_right (by decide))
  have h3 : ((x ^^^ (x >>> 11)) ^^^ (((x ^^^ (x >>> 11)) <<< 7) &&& 0x9D2C5680)) ^^^
      ((((x ^^^ (x >>> 11)) ^^^ (((x ^^^ (x >>> 11)) <<< 7) &&& 0x9D2C5680)) <<< 15) &&&
        0xEFC60000) < 2 ^ 32 :=
    Nat.xor_lt_two_pow h2 (Nat.lt_of_le_of_lt Nat.and_le_right (by decide))
  have h4 : (((x ^^^ (x >>> 11)) ^^^ (((x ^^^ (x >>> 11)) <<< 7) &&& 0x9D2C5680)) ^^^
      ((((x ^^^ (x >>> 11)) ^^^ (((x ^^^ (x >>> 11)) <<< 7) &&& 0x9D2C5680)) <<< 15) &&&
        0xEFC60000)) ^^^
      ((((x ^^^ (x >>> 11)) ^^^ (((x ^^^ (x >>> 11)) <<< 7) &&& 0x9D2C5680)) ^^^
      ((((x ^^^ (x >>> 11)) ^^^ (((x ^^^ (x >>> 11)) <<< 7) &&& 0x9D2C5680)) <<< 15) &&&
        0xEFC60000)) >>> 18) < 2 ^ 32 :=
    Nat.xor_lt_two_pow h3 (Nat.lt_of_le_of_lt (hsr _ 18) h3)
  simp only [MT19937.temper, temper_steps, U, S, B, T, C, L]
  rw [Nat.mod_eq_of_lt h1, Nat.mod_eq_of_lt h2, Nat.mod_eq_of_lt h3, Nat.mod_eq_of_lt h4]
  have hmask : (0xFFFFFFFF : Nat) = 2 ^ 32 - 1 := by norm_num
  rw [hmask, Nat.and_pow_two_sub_one_of_lt_two_pow h4]

/-- C7 witness at a concrete 32-bit word. -/
theorem c7_witness :
    (0xDEADBEEF : Nat) < 2 ^ 32 ∧
    MT19937.temper 0xDEADBEEF = temper_steps 0xDEADBEEF :=
  ⟨by decide, c7_temper_is_four_masked_steps 0xDEADBEEF (by decide)⟩

/-- C8: determinism: two engines seeded from the same word sequence,
whatever their prior states, produce the same output at every future
position (no operation consults hidden entropy). -/
theorem c8_seed_deterministic (s1 s2 e1 e2 : MT19937) (input : List Nat) (n : Nat)
    (h1 : s1.seed_from_state input = (e1, none))
    (h2 : s2.seed_from_state input = (e2, none)) :
    MT19937.output e1 n = MT19937.output e2 n := by
  unfold MT19937.seed_from_state at h1 h2
  by_cases h : input.length ≠ MT19937.N
  · rw [if_pos h] at h1
    exact absurd (congrArg Prod.snd h1) (by simp)
  · rw [if_neg h] at h1 h2
    have g1 := congrArg Prod.fst h1
    have g2 := congrArg Prod.fst h2
    simp only [Prod.fst] at g1 g2
    rw [← g1, ← g2]

/-- C8 witness: two different prior engine states seeded from the same
624-word array agree on a future output. -/
theorem c8_seed_deterministic_witness :
    MT19937.seed_from_state MT19937.init (List.replicate 624 5) =
      (⟨List.replicate 624 5, 624⟩, none) ∧
    MT19937.seed_from_state ⟨[], 0⟩ (List.replicate 624 5) =
      (⟨List.replicate 624 5, 624⟩, none) ∧
    MT19937.output (⟨List.replicate 624 5, 624⟩ : MT19937) 3 =
      MT19937.output (⟨List.replicate 624 5, 624⟩ : MT19937) 3 :=
  ⟨by decide, by decide,
   c8_seed_deterministic MT19937.init ⟨[], 0⟩ _ _ (List.replicate 624 5) 3
     (by decide) (by decide)⟩

/-- C10: the state invariant (all stored words are 32-bit values, the
cursor is between 0 and 624) holds after construction and is preserved
by every successful seed_from_state, by twist, and by next_uint32. -/
theorem c10_state_invariant (s s' : MT19937) (input : List Nat) :
    Inv MT19937.init ∧
    (s.seed_from_state input = (s', none) → Inv s') ∧
    (Inv s → Inv s.twist) ∧
    (Inv s → Inv (s.next_uint32).2) := by
  refine ⟨⟨?_, ?_⟩, ?_, ?_, ?_⟩
  · intro x hx
    have hx0 : x = 0 := List.eq_of_mem_replicate hx
    rw [hx0]
    decide
  · show MT19937.N ≤ 624
    decide
  · intro hok
    unfold MT19937.seed_from_state at hok
    by_cases h : input.length ≠ MT19937.N
    · rw [if_pos h] at hok
      exact absurd (congrArg Prod.snd hok) (by simp)
    · rw [if_neg h] at hok
      have g := congrArg Prod.fst hok
      simp only [Prod.fst] at g
      rw [← g]
      constructor
      · intro x hx
        obtain ⟨y, _, rfl⟩ := List.mem_map.mp hx
        exact Nat.lt_of_le_of_lt Nat.and_le_right (by decide)
      · show MT19937.N ≤ 624
        decide
  · rintro ⟨hmem, _⟩
    exact ⟨foldl_twistStep_mem_lt _ _ hmem, by show (0 : Nat) ≤ 624; omega⟩
  · rintro ⟨hmem, hidx⟩
    by_cases hge : s.index ≥ 624
    · rw [next_uint32_of_ge s hge]
      exact ⟨foldl_twistStep_mem_lt _ _ hmem, by show (1 : Nat) ≤ 624; omega⟩
    · rw [next_uint32_of_lt s (by omega)]
      exact ⟨hmem, by show s.index + 1 ≤ 624; omega⟩

/-- C10 witness: the invariant holds for the fresh engine, its twist,
and the engine after one next_uint32 call. -/
theorem c10_state_invariant_witness :
    Inv MT19937.init ∧ Inv (MT19937.twist MT19937.init) ∧
    Inv ((MT19937.init.next_uint32).2) :=
  ⟨(c10_state_invariant MT19937.init MT19937.init []).1,
   (c10_state_invariant MT19937.init MT19937.init []).2.2.1
     (c10_state_invariant MT19937.init MT19937.init []).1,
   (c10_state_invariant MT19937.init MT19937.init []).2.2.2
     (c10_state_invariant MT19937.init MT19937.init []).1⟩

/-- C1: the claim states that collecting 624 outputs from a real
generator, passing each through untemper, and seeding a fresh engine
from the result yields exact future prediction.  The code violates this:
starting from the probe array of 624 copies of 0x80000000, both seedings
succeed, but the first output of the reconstructed engine is 4269319294
while the 625th output of the original generator (its first output after
the 624 observed ones) is 3961273095.  Prediction fails because untemper
does not invert temper. -/
theorem c1_reconstruction_fails_to_predict :
    (MT19937.init.seed_from_state probeHigh).2 = none ∧
    (MT19937.init.seed_from_state
      ((MT19937.outputs (MT19937.init.seed_from_state probeHigh).1 624).map untemper)).2
      = none ∧
    MT19937.output
      (MT19937.init.seed_from_state
        ((MT19937.outputs (MT19937.init.seed_from_state probeHigh).1 624).map untemper)).1
      0 = 4269319294 ∧
    MT19937.output (MT19937.init.seed_from_state probeHigh).1 624 = 3961273095 ∧
    MT19937.output
      (MT19937.init.seed_from_state
        ((MT19937.outputs (MT19937.init.seed_from_state probeHigh).1 624).map untemper)).1
      0 ≠ MT19937.output (MT19937.init.seed_from_state probeHigh).1 624 := by
  have hseed1 : MT19937.init.seed_from_state probeHigh = (⟨probeHigh, 624⟩, none) := by
    decide
  have hlen1 : probeHigh.length = 624 := by decide
  have houts : MT19937.outputs ⟨probeHigh, 624⟩ 624 =
      (List.range 624).map (fun i => MT19937.temper (mtSeq probeHigh (624 + i))) :=
    outputs_seeded probeHigh hlen1
  have hlen2 : ((MT19937.outputs ⟨probeHigh, 624⟩ 624).map untemper).length = 624 := by
    rw [List.length_map, outputs_length]
  have hseed2 : MT19937.init.seed_from_state
      ((MT19937.outputs ⟨probeHigh, 624⟩ 624).map untemper) =
      (⟨((MT19937.outputs ⟨probeHigh, 624⟩ 624).map untemper).map
          (fun x => x &&& 0xFFFFFFFF), 624⟩, none) := by
    unfold MT19937.seed_from_state
    rw [if_neg (by rw [hlen2]; decide)]
    rfl
  have hmtlen : (((MT19937.outputs ⟨probeHigh, 624⟩ 624).map untemper).map
      (fun x => x &&& 0xFFFFFFFF)).length = 624 := by
    rw [List.length_map, hlen2]
  have hgd : ∀ j, j < 624 →
      (((MT19937.outputs ⟨probeHigh, 624⟩ 624).map untemper).map
        (fun x => x &&& 0xFFFFFFFF)).getD j 0 =
      (untemper (MT19937.temper (mtSeq probeHigh (624 + j)))) &&& 0xFFFFFFFF := by
    intro j hj
    rw [houts, List.map_map, List.map_map, getD_map_range _ _ _ hj]
    rfl
  have n624 : mtSeq probeHigh 624 = 0xC0000000 := by decide
  have n625 : mtSeq probeHigh 625 = 0xC0000000 := by decide
  have n1021 : mtSeq probeHigh 1021 = 0x80000000 := by decide
  have e1 : (624 : Nat) - 624 = 0 := by norm_num
  have e2 : (624 : Nat) - 623 = 1 := by norm_num
  have e3 : (624 : Nat) - 227 = 397 := by norm_num
  have f0 : (624 : Nat) + 0 = 624 := by norm_num
  have f1 : (624 : Nat) + 1 = 625 := by norm_num
  have f397 : (624 : Nat) + 397 = 1021 := by norm_num
  have hfresh0 : MT19937.output
      ⟨((MT19937.outputs ⟨probeHigh, 624⟩ 624).map untemper).map
        (fun x => x &&& 0xFFFFFFFF), 624⟩ 0 = 4269319294 := by
    rw [output_seeded_0 _ hmtlen]
    rw [mtSeq_ge _ 624 (by omega), e1, e2, e3,
        mtSeq_lt _ 0 (by omega), mtSeq_lt _ 1 (by omega), mtSeq_lt _ 397 (by omega)]
    rw [hgd 0 (by omega), hgd 1 (by omega), hgd 397 (by omega)]
    rw [f0, f1, f397, n624, n625, n1021]
    decide
  have horig624 : MT19937.output ⟨probeHigh, 624⟩ 624 = 3961273095 := by
    rw [output_seeded_624 probeHigh hlen1]
    rw [mtSeq_ge _ 624 (by omega), e1, e2, e3,
        mtSeq_lt _ 0 (by omega), mtSeq_lt _ 1 (by omega), mtSeq_lt _ 397 (by omega)]
    rw [twistArr_getD probeHigh hlen1 0 (by omega),
        twistArr_getD probeHigh hlen1 1 (by omega),
        twistArr_getD probeHigh hlen1 397 (by omega)]
    rw [f0, f1, f397, n624, n625, n1021]
    decide
  refine ⟨by rw [hseed1], ?_, ?_, ?_, ?_⟩
  · rw [hseed1]
    show (MT19937.init.seed_from_state
      ((MT19937.outputs ⟨probeHigh, 624⟩ 624).map untemper)).2 = none
    rw [hseed2]
  · rw [hseed1]
    show MT19937.output
      (MT19937.init.seed_from_state
        ((MT19937.outputs ⟨probeHigh, 624⟩ 624).map untemper)).1 0 = 4269319294
    rw [hseed2]
    exact hfresh0
  · rw [hseed1]
    exact horig624
  · rw [hseed1]
    show MT19937.output
        (MT19937.init.seed_from_state
          ((MT19937.outputs ⟨probeHigh, 624⟩ 624).map untemper)).1 0
      ≠ MT19937.output ⟨probeHigh, 624⟩ 624
    rw [hseed2]
    show MT19937.output
        ⟨((MT19937.outputs ⟨probeHigh, 624⟩ 624).map untemper).map
          (fun x => x &&& 0xFFFFFFFF), 624⟩ 0 ≠ MT19937.output ⟨probeHigh, 624⟩ 624
    rw [hfresh0, horig624]
    decide

end LuckySolver
